import Mathlib

/-!
Shallow embedding of the Pomodoro timer / task-activation core of the
task-board application (source: `src/unnamed/part_000`, the `App` component).

Modelling notes:
  - A `Task` keeps only the fields the timer core reads (`id`, `status`);
    `title`, `color`, `position`, `dueDate` are cosmetic and never read by
    the timer logic.
  - React state updates inside one event handler are batched: functional
    `setTasks(fn)` updates compose in call order, while plain reads inside
    the handler (`activeTask`, `timerSettings`) see the values captured by
    the closures of the render in which the handler was created.  Handlers
    are therefore embedded as functions on the whole application state, and
    a call like `resetTimer()` made after `setActiveTask(null)` inside the
    same handler still sees the old `activeTask` - this is made explicit by
    `resetTimerWith`, which takes the captured closure values as arguments.
  - Machine integers: all the counters are small non-negative integers, so
    they are embedded as `Nat`.  The only subtraction, `sessionsLeft - 1`,
    is guarded by `0 < sessionsLeft - 1` in both JS and here; for every
    `Nat` value the guard and the stored result agree with the JS ones on
    the branch that is taken.
-/

namespace TaskApp

inductive TaskStatus
  | todo
  | doing
  | done
deriving DecidableEq

structure Task where
  id : Nat
  status : TaskStatus
deriving DecidableEq

/-- `timer.currentMode` in the source: `pomodoro` is the initial / reset
("idle") mode, `pomodoroWork` and `pomodoroBreak` the two running phases. -/
inductive TimerMode
  | pomodoro
  | pomodoroWork
  | pomodoroBreak
deriving DecidableEq

structure TimerState where
  currentMode : TimerMode
  timeLeft : Nat
  isRunning : Bool
  sessionsLeft : Nat
  totalSessions : Nat
deriving DecidableEq

structure TimerSettings where
  pomodoroWork : Nat
  pomodoroBreak : Nat
  pomodoroSessions : Nat
deriving DecidableEq

structure AppState where
  tasks : List Task
  timerSettings : TimerSettings
  timer : TimerState
  activeTask : Option Task
deriving DecidableEq

/-- The `setTasks` updater used by `handleUpdateStatus` and `resetTimer`:
`tasks.map(task => task.id === taskId ? { ...task, status } : task)`. -/
def setStatusInTasks (taskId : Nat) (status : TaskStatus) (tasks : List Task) :
    List Task :=
  tasks.map fun task =>
    if task.id = taskId then { task with status := status } else task

/-- `handleUpdateStatus(taskId, status)` (source lines 91-100): updates the
matching task and clears `activeTask` whenever `status !== 'doing'`. -/
def handleUpdateStatus (taskId : Nat) (status : TaskStatus) (s : AppState) :
    AppState :=
  { s with
    tasks := setStatusInTasks taskId status s.tasks,
    activeTask := if status ≠ TaskStatus.doing then none else s.activeTask }

/-- Body of `resetTimer` (source lines 102-119) with the closure-captured
values (`activeTask`, `timerSettings` of the render that created the
callback) passed explicitly, since a caller may invoke it after having
already queued an update of `activeTask` in the same event handler. -/
def resetTimerWith (active : Option Task) (settings : TimerSettings)
    (s : AppState) : AppState :=
  { s with
    timer :=
      { currentMode := TimerMode.pomodoro,
        timeLeft := settings.pomodoroWork * 60,
        isRunning := false,
        sessionsLeft := settings.pomodoroSessions,
        totalSessions := settings.pomodoroSessions },
    tasks :=
      match active with
      | some a => setStatusInTasks a.id TaskStatus.todo s.tasks
      | none => s.tasks,
    activeTask := none }

/-- `resetTimer()` invoked on its own (Reset button): the closure values
coincide with the current state. -/
def resetTimer (s : AppState) : AppState :=
  resetTimerWith s.activeTask s.timerSettings s

/-- `onComplete` (source line 311): `handleUpdateStatus(activeTask.id,
'done'); resetTimer();`.  Both callbacks were created in a render where
`activeTask` was non-null (the `TimerControl` is only mounted then), so
`resetTimer` still sees that task in its closure even though
`handleUpdateStatus` has already queued `setActiveTask(null)`. -/
def onComplete (s : AppState) : AppState :=
  match s.activeTask with
  | some a =>
      resetTimerWith (some a) s.timerSettings
        (handleUpdateStatus a.id TaskStatus.done s)
  | none => s

/-- `startTimer(task, 'pomodoro')` (source lines 222-244).  Every call site
in the source passes mode `'pomodoro'`, so only that branch is embedded. -/
def startTimer (task : Task) (s : AppState) : AppState :=
  let s1 :=
    match s.activeTask with
    | some a =>
        if a.id ≠ task.id then handleUpdateStatus a.id TaskStatus.todo s
        else s
    | none => s
  let s2 := handleUpdateStatus task.id TaskStatus.doing s1
  { s2 with
    activeTask := some task,
    timer :=
      { currentMode := TimerMode.pomodoroWork,
        timeLeft := s.timerSettings.pomodoroWork * 60,
        isRunning := true,
        sessionsLeft := s.timerSettings.pomodoroSessions,
        totalSessions := s.timerSettings.pomodoroSessions } }

/-- `togglePauseTimer` (source lines 246-251). -/
def togglePauseTimer (s : AppState) : AppState :=
  { s with timer := { s.timer with isRunning := !s.timer.isRunning } }

/-- The `timeLeft <= 0` portion of the tick `useEffect` (source lines
145-182), run while `isRunning`: work goes to break while sessions remain,
otherwise the run completes (revert the active task to `todo`, then
`resetTimer()`, both reading the same render snapshot); break goes back to
work.  In any other mode the effect does nothing. -/
def timerEffectAtZero (s : AppState) : AppState :=
  if s.timer.currentMode = TimerMode.pomodoroWork then
    let newSessionsLeft := s.timer.sessionsLeft - 1
    if 0 < newSessionsLeft then
      { s with
        timer :=
          { s.timer with
            currentMode := TimerMode.pomodoroBreak,
            timeLeft := s.timerSettings.pomodoroBreak * 60,
            sessionsLeft := newSessionsLeft,
            isRunning := true } }
    else
      match s.activeTask with
      | some a =>
          resetTimerWith (some a) s.timerSettings
            (handleUpdateStatus a.id TaskStatus.todo s)
      | none => resetTimerWith none s.timerSettings s
  else if s.timer.currentMode = TimerMode.pomodoroBreak then
    { s with
      timer :=
        { s.timer with
          currentMode := TimerMode.pomodoroWork,
          timeLeft := s.timerSettings.pomodoroWork * 60,
          isRunning := true } }
  else s

/-- One elapsed second of the tick loop: the interval (scheduled only while
`isRunning` and `timeLeft > 0`, source lines 185-187) decrements
`timeLeft`; the effect then re-runs and, if the new `timeLeft` reached 0,
performs the phase transition immediately. -/
def tickSecond (s : AppState) : AppState :=
  if s.timer.isRunning = true ∧ 0 < s.timer.timeLeft then
    let t : AppState :=
      { s with timer := { s.timer with timeLeft := s.timer.timeLeft - 1 } }
    if t.timer.timeLeft = 0 then timerEffectAtZero t else t
  else s

/-- `handleDeleteTask` (source line 134): it only filters the task list. -/
def handleDeleteTask (taskId : Nat) (s : AppState) : AppState :=
  { s with tasks := s.tasks.filter fun task => task.id ≠ taskId }

/-- `SettingsModal.handleSave` followed by `onSave = setTimerSettings`
(source lines 425, 335), restricted to integer numeric inputs: each field
is stored as `Math.max(1, value)`.  The general (possibly non-numeric)
input behaviour is embedded separately below via `JSNumber`. -/
def saveSettingsNat (w b n : Nat) (s : AppState) : AppState :=
  { s with
    timerSettings :=
      { pomodoroWork := max 1 w,
        pomodoroBreak := max 1 b,
        pomodoroSessions := max 1 n } }

/-- Result of the JS `Number(...)` conversion applied to a settings input
field: either a numeric value (embedded as a rational) or `NaN`
(`Number` of a non-numeric string). -/
inductive JSNumber
  | nan
  | num (q : ℚ)
deriving DecidableEq

/-- JS `Math.max(1, x)`: returns `NaN` whenever an argument is `NaN`. -/
def jsMax1 : JSNumber → JSNumber
  | JSNumber.nan => JSNumber.nan
  | JSNumber.num q => JSNumber.num (max 1 q)

/-- The three settings fields after `Number(...)` conversion. -/
structure RawSettings where
  pomodoroWork : JSNumber
  pomodoroBreak : JSNumber
  pomodoroSessions : JSNumber
deriving DecidableEq

/-- `SettingsModal.handleSave` (source line 425): clamps each converted
field with `Math.max(1, Number(...))` and stores the result
unconditionally (the save is never rejected). -/
def handleSave (localSettings : RawSettings) : RawSettings :=
  { pomodoroWork := jsMax1 localSettings.pomodoroWork,
    pomodoroBreak := jsMax1 localSettings.pomodoroBreak,
    pomodoroSessions := jsMax1 localSettings.pomodoroSessions }

/-- The default task list (source lines 26-30), projected to `id`/`status`. -/
def initialTasks : List Task :=
  [⟨1, TaskStatus.todo⟩, ⟨2, TaskStatus.todo⟩, ⟨3, TaskStatus.done⟩]

/-- Default timer settings (source lines 38-42). -/
def initialSettings : TimerSettings := ⟨25, 5, 4⟩

/-- The initial application state (source lines 26-53). -/
def initState : AppState :=
  { tasks := initialTasks,
    timerSettings := initialSettings,
    timer :=
      { currentMode := TimerMode.pomodoro,
        timeLeft := initialSettings.pomodoroWork * 60,
        isRunning := false,
        sessionsLeft := initialSettings.pomodoroSessions,
        totalSessions := initialSettings.pomodoroSessions },
    activeTask := none }

/-- The user-triggerable operations of the timer/task core.  `markDone` and
`markTodo` are the external status buttons on a task item; the others are
the timer controls, the 1-second tick, task deletion and the settings
save. -/
inductive Op
  | start (task : Task)
  | tick
  | togglePause
  | complete
  | reset
  | markDone (taskId : Nat)
  | markTodo (taskId : Nat)
  | delete (taskId : Nat)
  | saveSettings (w b n : Nat)

def step : Op → AppState → AppState
  | Op.start t => startTimer t
  | Op.tick => tickSecond
  | Op.togglePause => togglePauseTimer
  | Op.complete => onComplete
  | Op.reset => resetTimer
  | Op.markDone tid => handleUpdateStatus tid TaskStatus.done
  | Op.markTodo tid => handleUpdateStatus tid TaskStatus.todo
  | Op.delete tid => handleDeleteTask tid
  | Op.saveSettings w b n => saveSettingsNat w b n

/-- States reachable from the initial state by any sequence of operations. -/
inductive Reachable : AppState → Prop
  | init : Reachable initState
  | step (o : Op) {s : AppState} : Reachable s → Reachable (step o s)

/-- The external status buttons (mark done / revert to todo). -/
def isExternalMark : Op → Bool
  | Op.markDone _ => true
  | Op.markTodo _ => true
  | _ => false

/-- States reachable without using the external status buttons. -/
inductive ReachableTimer : AppState → Prop
  | init : ReachableTimer initState
  | step (o : Op) {s : AppState} : isExternalMark o = false →
      ReachableTimer s → ReachableTimer (step o s)


/-- Status of the task with the given id, if present. -/
def statusOf (taskId : Nat) (s : AppState) : Option TaskStatus :=
  (s.tasks.find? fun t => decide (t.id = taskId)).map Task.status

theorem setStatusInTasks_map_id (taskId : Nat) (status : TaskStatus)
    (l : List Task) :
    (setStatusInTasks taskId status l).map Task.id = l.map Task.id := by
  unfold setStatusInTasks
  rw [List.map_map]
  apply List.map_congr_left
  intro t _
  by_cases h : t.id = taskId <;> simp [h]

theorem mem_setStatus_cases {taskId : Nat} {status : TaskStatus}
    {l : List Task} {t : Task} (h : t ∈ setStatusInTasks taskId status l) :
    (t.id = taskId ∧ t.status = status) ∨ (t.id ≠ taskId ∧ t ∈ l) := by
  unfold setStatusInTasks at h
  obtain ⟨u, hu, heq⟩ := List.mem_map.mp h
  by_cases h2 : u.id = taskId
  · left
    rw [if_pos h2] at heq
    subst heq
    exact ⟨h2, rfl⟩
  · right
    rw [if_neg h2] at heq
    subst heq
    exact ⟨h2, hu⟩

theorem status_of_mem_setStatus {taskId : Nat} {status : TaskStatus}
    {l : List Task} {t : Task} (h : t ∈ setStatusInTasks taskId status l)
    (hid : t.id = taskId) : t.status = status := by
  rcases mem_setStatus_cases h with ⟨_, hs⟩ | ⟨hne, _⟩
  · exact hs
  · exact absurd hid hne

theorem mem_of_mem_setStatus_ne {taskId : Nat} {status : TaskStatus}
    {l : List Task} {t : Task} (h : t ∈ setStatusInTasks taskId status l)
    (hid : t.id ≠ taskId) : t ∈ l := by
  rcases mem_setStatus_cases h with ⟨h1, _⟩ | ⟨_, h2⟩
  · exact absurd h1 hid
  · exact h2

/-- C8: `reset()` at any point (including idle) returns the machine to idle
with `timeLeft`, `sessionsRemaining` and `totalSessions` derived from the
current settings, reverts an active task (if any) to `todo` while leaving
all other tasks untouched, and clears `activeTask`. -/
theorem resetTimer_spec (s : AppState) :
    (resetTimer s).timer.currentMode = TimerMode.pomodoro ∧
    (resetTimer s).timer.isRunning = false ∧
    (resetTimer s).timer.timeLeft = s.timerSettings.pomodoroWork * 60 ∧
    (resetTimer s).timer.sessionsLeft = s.timerSettings.pomodoroSessions ∧
    (resetTimer s).timer.totalSessions = s.timerSettings.pomodoroSessions ∧
    (resetTimer s).activeTask = none ∧
    (∀ a : Task, s.activeTask = some a →
      (resetTimer s).tasks = s.tasks.map fun t =>
        if t.id = a.id then { t with status := TaskStatus.todo } else t) ∧
    (s.activeTask = none → (resetTimer s).tasks = s.tasks) := by
  refine ⟨rfl, rfl, rfl, rfl, rfl, rfl, ?_, ?_⟩
  · intro a ha
    simp [resetTimer, resetTimerWith, ha, setStatusInTasks]
  · intro ha
    simp [resetTimer, resetTimerWith, ha]

theorem resetTimer_spec_witness :
    (resetTimer (startTimer ⟨1, TaskStatus.todo⟩ initState)).activeTask = none ∧
    (resetTimer (startTimer ⟨1, TaskStatus.todo⟩ initState)).tasks =
      (startTimer ⟨1, TaskStatus.todo⟩ initState).tasks.map fun t =>
        if t.id = 1 then { t with status := TaskStatus.todo } else t := by
  have h := resetTimer_spec (startTimer ⟨1, TaskStatus.todo⟩ initState)
  exact ⟨h.2.2.2.2.2.1, h.2.2.2.2.2.2.1 ⟨1, TaskStatus.todo⟩ rfl⟩

/-- C10: starting the task that is already active does not demote it (every
registry entry with its id is set to `doing`) and restarts the run from the
current settings: full work duration, session counters reset, phase work,
running. -/
theorem start_active_task_again (s : AppState) (b : Task)
    (hb : s.activeTask = some b) (task : Task) (hid : task.id = b.id) :
    (startTimer task s).activeTask = some task ∧
    (startTimer task s).timer =
      { currentMode := TimerMode.pomodoroWork,
        timeLeft := s.timerSettings.pomodoroWork * 60,
        isRunning := true,
        sessionsLeft := s.timerSettings.pomodoroSessions,
        totalSessions := s.timerSettings.pomodoroSessions } ∧
    (startTimer task s).tasks = s.tasks.map (fun t =>
      if t.id = task.id then { t with status := TaskStatus.doing } else t) ∧
    (∀ t ∈ (startTimer task s).tasks, t.id = task.id →
      t.status = TaskStatus.doing) := by
  have hcond : ¬ (b.id ≠ task.id) := fun h => h hid.symm
  refine ⟨?_, ?_, ?_, ?_⟩
  · simp [startTimer, hb, if_neg hcond]
  · simp [startTimer, hb, if_neg hcond]
  · simp [startTimer, hb, if_neg hcond, handleUpdateStatus, setStatusInTasks]
  · intro t ht _
    have ht2 : t ∈ setStatusInTasks task.id TaskStatus.doing
        (match s.activeTask with
          | some a =>
              if a.id ≠ task.id then handleUpdateStatus a.id TaskStatus.todo s
              else s
          | none => s).tasks := ht
    exact status_of_mem_setStatus ht2 (by assumption)

theorem start_active_task_again_witness :
    (startTimer ⟨1, TaskStatus.todo⟩
        (startTimer ⟨1, TaskStatus.todo⟩ initState)).activeTask =
      some ⟨1, TaskStatus.todo⟩ ∧
    (startTimer ⟨1, TaskStatus.todo⟩
        (startTimer ⟨1, TaskStatus.todo⟩ initState)).timer =
      { currentMode := TimerMode.pomodoroWork,
        timeLeft := 25 * 60,
        isRunning := true,
        sessionsLeft := 4,
        totalSessions := 4 } := by
  have h := start_active_task_again (startTimer ⟨1, TaskStatus.todo⟩ initState)
    ⟨1, TaskStatus.todo⟩ rfl ⟨1, TaskStatus.todo⟩ rfl
  exact ⟨h.1, h.2.1⟩


/-- C6: starting task `A` while a different task `B` is active promotes `A`
to `doing`, demotes `B` to `todo` (never `done`), makes `A` the active
task, and leaves the status of every other task unchanged. -/
theorem start_switches_tasks (s : AppState) (A B : Task)
    (hB : s.activeTask = some B) (hne : A.id ≠ B.id) :
    (startTimer A s).activeTask = some A ∧
    (startTimer A s).tasks = s.tasks.map (fun t =>
      if t.id = A.id then { t with status := TaskStatus.doing }
      else if t.id = B.id then { t with status := TaskStatus.todo }
      else t) ∧
    (∀ t ∈ (startTimer A s).tasks, t.id = B.id →
      t.status = TaskStatus.todo) := by
  have hcond : B.id ≠ A.id := fun h => hne h.symm
  have hTasks : (startTimer A s).tasks =
      setStatusInTasks A.id TaskStatus.doing
        (setStatusInTasks B.id TaskStatus.todo s.tasks) := by
    simp [startTimer, hB, hcond, handleUpdateStatus]
  refine ⟨?_, ?_, ?_⟩
  · simp [startTimer, hB, if_pos hcond]
  · rw [hTasks]
    unfold setStatusInTasks
    rw [List.map_map]
    congr 1
    funext t
    by_cases h1 : t.id = A.id
    · have h2 : t.id ≠ B.id := h1 ▸ hne
      simp [Function.comp, h1, h2, hne]
    · by_cases h2 : t.id = B.id
      · simp [Function.comp, h1, h2, hcond]
      · simp [Function.comp, h1, h2]
  · intro t ht htB
    rw [hTasks] at ht
    have hA : t.id ≠ A.id := htB ▸ hcond
    have ht3 : t ∈ setStatusInTasks B.id TaskStatus.todo s.tasks :=
      mem_of_mem_setStatus_ne ht hA
    exact status_of_mem_setStatus ht3 htB

theorem start_switches_tasks_witness :
    (startTimer ⟨2, TaskStatus.todo⟩
        (startTimer ⟨1, TaskStatus.todo⟩ initState)).activeTask =
      some ⟨2, TaskStatus.todo⟩ ∧
    (startTimer ⟨2, TaskStatus.todo⟩
        (startTimer ⟨1, TaskStatus.todo⟩ initState)).tasks =
      (startTimer ⟨1, TaskStatus.todo⟩ initState).tasks.map (fun t =>
        if t.id = 2 then { t with status := TaskStatus.doing }
        else if t.id = 1 then { t with status := TaskStatus.todo }
        else t) := by
  have h := start_switches_tasks (startTimer ⟨1, TaskStatus.todo⟩ initState)
    ⟨2, TaskStatus.todo⟩ ⟨1, TaskStatus.todo⟩ rfl (by decide)
  exact ⟨h.1, h.2.1⟩

/-- C4 counterexample: `handleSave` stores `NaN` for a non-numeric input
(JS `Math.max(1, NaN)` is `NaN`), and stores non-integer numeric values
unchanged, so the stored settings are not always positive integers. -/
theorem handleSave_nan_counterexample :
    (handleSave ⟨JSNumber.nan, JSNumber.num 5, JSNumber.num 4⟩).pomodoroWork =
      JSNumber.nan ∧
    (handleSave ⟨JSNumber.num (5 / 2), JSNumber.num 5,
        JSNumber.num 4⟩).pomodoroWork = JSNumber.num (5 / 2) := by
  constructor
  · rfl
  · show jsMax1 (JSNumber.num (5 / 2)) = JSNumber.num (5 / 2)
    unfold jsMax1
    norm_num

/-- C4 (amended): for numeric settings input the save is accepted and each
field is clamped to a minimum of 1; the stored values are at least 1 but
need not be integers, and a non-numeric (`NaN`) input is stored as `NaN`. -/
theorem handleSave_clamps_numeric (w b n : ℚ) :
    handleSave ⟨JSNumber.num w, JSNumber.num b, JSNumber.num n⟩ =
      ⟨JSNumber.num (max 1 w), JSNumber.num (max 1 b),
        JSNumber.num (max 1 n)⟩ ∧
    1 ≤ max 1 w ∧ 1 ≤ max 1 b ∧ 1 ≤ max 1 n ∧
    handleSave ⟨JSNumber.nan, JSNumber.num b, JSNumber.num n⟩ =
      ⟨JSNumber.nan, JSNumber.num (max 1 b), JSNumber.num (max 1 n)⟩ := by
  exact ⟨rfl, le_max_left 1 w, le_max_left 1 b, le_max_left 1 n, rfl⟩

/-- C1: in the code, `complete()` first sets the active task to `done` but
the subsequent `resetTimer()` still sees the task in its closure and maps
it back to `todo`; the net effect of the complete button is status `todo`,
not `done` (evaluated here at the initial state after starting task 1). -/
theorem complete_reverts_status_to_todo :
    statusOf 1 (onComplete (startTimer ⟨1, TaskStatus.todo⟩ initState)) =
      some TaskStatus.todo ∧
    (onComplete (startTimer ⟨1, TaskStatus.todo⟩ initState)).activeTask =
      none ∧
    (onComplete (startTimer ⟨1, TaskStatus.todo⟩ initState)).timer.currentMode =
      TimerMode.pomodoro := by
  decide

/-- C3 counterexample: deleting the active task is not an implicit
`reset()` - the timer keeps running in the work phase and `activeTask`
still references the deleted task, whereas `reset()` yields the idle mode,
a stopped timer and no active task. -/
theorem delete_active_task_counterexample :
    (handleDeleteTask 1 (startTimer ⟨1, TaskStatus.todo⟩ initState)).activeTask =
      some ⟨1, TaskStatus.todo⟩ ∧
    (handleDeleteTask 1
        (startTimer ⟨1, TaskStatus.todo⟩ initState)).timer.currentMode =
      TimerMode.pomodoroWork ∧
    (handleDeleteTask 1
        (startTimer ⟨1, TaskStatus.todo⟩ initState)).timer.isRunning = true ∧
    (statusOf 1 (handleDeleteTask 1
        (startTimer ⟨1, TaskStatus.todo⟩ initState))) = none ∧
    (resetTimer (startTimer ⟨1, TaskStatus.todo⟩ initState)).timer.currentMode =
      TimerMode.pomodoro ∧
    (resetTimer (startTimer ⟨1, TaskStatus.todo⟩ initState)).timer.isRunning =
      false ∧
    (resetTimer (startTimer ⟨1, TaskStatus.todo⟩ initState)).activeTask =
      none := by
  decide

/-- C3 (amended): deleting a task only filters the registry; the timer
state, the settings and the `activeTask` reference are left unchanged (so
deleting the active task leaves a dangling reference rather than
resetting), and no entry with the deleted id remains. -/
theorem delete_task_frame (s : AppState) (taskId : Nat) :
    (handleDeleteTask taskId s).timer = s.timer ∧
    (handleDeleteTask taskId s).activeTask = s.activeTask ∧
    (handleDeleteTask taskId s).timerSettings = s.timerSettings ∧
    (handleDeleteTask taskId s).tasks =
      s.tasks.filter (fun t => t.id ≠ taskId) ∧
    ∀ t ∈ (handleDeleteTask taskId s).tasks, t.id ≠ taskId := by
  refine ⟨rfl, rfl, rfl, rfl, ?_⟩
  intro t ht
  have := List.of_mem_filter ht
  simpa using this

theorem delete_task_frame_witness :
    (handleDeleteTask 1 (startTimer ⟨1, TaskStatus.todo⟩ initState)).timer =
      (startTimer ⟨1, TaskStatus.todo⟩ initState).timer ∧
    (handleDeleteTask 1 (startTimer ⟨1, TaskStatus.todo⟩ initState)).activeTask =
      (startTimer ⟨1, TaskStatus.todo⟩ initState).activeTask := by
  have h := delete_task_frame (startTimer ⟨1, TaskStatus.todo⟩ initState) 1
  exact ⟨h.1, h.2.1⟩


/-- C9: updating the settings mid-run leaves the in-flight timer state (in
particular `timeLeft` and `totalSessions`), the tasks and the active task
unchanged; the next phase boundary (work to break, or break to work) and
any subsequent `startTimer` use the newly stored (clamped) values. -/
theorem settings_change_policy (s : AppState) (w b n : Nat) :
    (saveSettingsNat w b n s).timer = s.timer ∧
    (saveSettingsNat w b n s).tasks = s.tasks ∧
    (saveSettingsNat w b n s).activeTask = s.activeTask ∧
    (s.timer.isRunning = true → s.timer.timeLeft = 1 →
      s.timer.currentMode = TimerMode.pomodoroWork →
      1 < s.timer.sessionsLeft →
      (tickSecond (saveSettingsNat w b n s)).timer.currentMode =
        TimerMode.pomodoroBreak ∧
      (tickSecond (saveSettingsNat w b n s)).timer.timeLeft =
        max 1 b * 60) ∧
    (s.timer.isRunning = true → s.timer.timeLeft = 1 →
      s.timer.currentMode = TimerMode.pomodoroBreak →
      (tickSecond (saveSettingsNat w b n s)).timer.currentMode =
        TimerMode.pomodoroWork ∧
      (tickSecond (saveSettingsNat w b n s)).timer.timeLeft =
        max 1 w * 60) ∧
    (∀ task : Task,
      (startTimer task (saveSettingsNat w b n s)).timer.timeLeft =
        max 1 w * 60 ∧
      (startTimer task (saveSettingsNat w b n s)).timer.sessionsLeft =
        max 1 n ∧
      (startTimer task (saveSettingsNat w b n s)).timer.totalSessions =
        max 1 n) := by
  refine ⟨rfl, rfl, rfl, ?_, ?_, ?_⟩
  · intro hr ht hm hs
    have hgt : 0 < s.timer.sessionsLeft - 1 := by omega
    simp [tickSecond, saveSettingsNat, hr, ht, timerEffectAtZero, hm, hgt]
  · intro hr ht hm
    have hne : s.timer.currentMode ≠ TimerMode.pomodoroWork := by
      rw [hm]; exact fun h => TimerMode.noConfusion h
    simp [tickSecond, saveSettingsNat, hr, ht, timerEffectAtZero, hm, hne]
  · intro task
    exact ⟨rfl, rfl, rfl⟩

theorem settings_change_policy_witness :
    (tickSecond (saveSettingsNat 7 3 9
        { tasks := initialTasks,
          timerSettings := initialSettings,
          timer :=
            { currentMode := TimerMode.pomodoroWork,
              timeLeft := 1,
              isRunning := true,
              sessionsLeft := 2,
              totalSessions := 4 },
          activeTask := some ⟨1, TaskStatus.todo⟩ })).timer.timeLeft =
      180 := by
  have h := settings_change_policy
    { tasks := initialTasks,
      timerSettings := initialSettings,
      timer :=
        { currentMode := TimerMode.pomodoroWork,
          timeLeft := 1,
          isRunning := true,
          sessionsLeft := 2,
          totalSessions := 4 },
      activeTask := some ⟨1, TaskStatus.todo⟩ } 7 3 9
  exact (h.2.2.2.1 rfl rfl rfl (by decide)).2

/-- While the timer is running and more than `n` seconds remain, `n` ticks
simply decrement `timeLeft` by `n` without any phase transition. -/
theorem tickSecond_run (n : Nat) : ∀ s : AppState,
    s.timer.isRunning = true → n < s.timer.timeLeft →
    tickSecond^[n] s =
      { s with timer := { s.timer with timeLeft := s.timer.timeLeft - n } } := by
  induction n with
  | zero =>
    intro s hr ht
    simp
  | succ n ih =>
    intro s hr ht
    rw [Function.iterate_succ_apply]
    have h1 : tickSecond s =
        { s with timer := { s.timer with timeLeft := s.timer.timeLeft - 1 } } := by
      unfold tickSecond
      rw [if_pos ⟨hr, by omega⟩]
      rw [if_neg (by simp; omega)]
    rw [h1]
    have h3 := ih
      { s with timer := { s.timer with timeLeft := s.timer.timeLeft - 1 } }
      hr (show n < s.timer.timeLeft - 1 by omega)
    rw [h3]
    simp
    omega


/-- The C5 scenario start: settings work 25 / break 5 / sessions 2, then
start task 1. -/
def cycleStart : AppState :=
  startTimer ⟨1, TaskStatus.todo⟩ (saveSettingsNat 25 5 2 initState)

/-- State after the first work phase of the C5 scenario. -/
def cycleAfterWork1 : AppState :=
  { tasks := [⟨1, TaskStatus.doing⟩, ⟨2, TaskStatus.todo⟩,
      ⟨3, TaskStatus.done⟩],
    timerSettings := ⟨25, 5, 2⟩,
    timer :=
      { currentMode := TimerMode.pomodoroBreak, timeLeft := 300,
        isRunning := true, sessionsLeft := 1, totalSessions := 2 },
    activeTask := some ⟨1, TaskStatus.todo⟩ }

/-- State after the first break phase of the C5 scenario. -/
def cycleAfterBreak1 : AppState :=
  { tasks := [⟨1, TaskStatus.doing⟩, ⟨2, TaskStatus.todo⟩,
      ⟨3, TaskStatus.done⟩],
    timerSettings := ⟨25, 5, 2⟩,
    timer :=
      { currentMode := TimerMode.pomodoroWork, timeLeft := 1500,
        isRunning := true, sessionsLeft := 1, totalSessions := 2 },
    activeTask := some ⟨1, TaskStatus.todo⟩ }

/-- Final state of the C5 scenario: idle, task 1 back to `todo`. -/
def cycleEnd : AppState :=
  { tasks := [⟨1, TaskStatus.todo⟩, ⟨2, TaskStatus.todo⟩,
      ⟨3, TaskStatus.done⟩],
    timerSettings := ⟨25, 5, 2⟩,
    timer :=
      { currentMode := TimerMode.pomodoro, timeLeft := 1500,
        isRunning := false, sessionsLeft := 2, totalSessions := 2 },
    activeTask := none }

/-- C5: with settings work 25, break 5, sessions 2, starting task 1 enters
the work phase with 1500 seconds; 1500 ticks later the machine is in the
break phase with 300 seconds and one session left; 300 ticks later it is
back in the work phase with 1500 seconds and one session left; 1500 ticks
later the machine is idle, the task status is back to `todo` (not `done`)
and the active task is cleared. -/
theorem full_cycle_scenario :
    cycleStart.timer =
      { currentMode := TimerMode.pomodoroWork, timeLeft := 1500,
        isRunning := true, sessionsLeft := 2, totalSessions := 2 } ∧
    statusOf 1 cycleStart = some TaskStatus.doing ∧
    tickSecond^[1500] cycleStart = cycleAfterWork1 ∧
    tickSecond^[300] cycleAfterWork1 = cycleAfterBreak1 ∧
    tickSecond^[1500] cycleAfterBreak1 = cycleEnd ∧
    statusOf 1 cycleEnd = some TaskStatus.todo ∧
    cycleEnd.activeTask = none ∧
    cycleEnd.timer.currentMode = TimerMode.pomodoro ∧
    cycleEnd.timer.isRunning = false := by
  have e1500 : (1500 : Nat) = 1499 + 1 := by norm_num
  have e300 : (300 : Nat) = 299 + 1 := by norm_num
  refine ⟨rfl, by decide, ?_, ?_, ?_, by decide, rfl, rfl, rfl⟩
  · have h := tickSecond_run 1499 cycleStart (by decide) (by decide)
    rw [e1500, Function.iterate_succ_apply', h]
    decide
  · have h := tickSecond_run 299 cycleAfterWork1 (by decide) (by decide)
    rw [e300, Function.iterate_succ_apply', h]
    decide
  · have h := tickSecond_run 1499 cycleAfterBreak1 (by decide) (by decide)
    rw [e1500, Function.iterate_succ_apply', h]
    decide


/-- C2 counterexample: after starting task 1 and then pressing the done
button on task 3, the state is reachable, the work phase is still running,
yet `activeTask` is `none`; and after starting task 1 and deleting it, the
state is reachable, `activeTask` still references task 1, yet no task with
id 1 exists in the registry. -/
theorem active_iff_counterexample :
    Reachable (step (Op.markDone 3)
      (step (Op.start ⟨1, TaskStatus.todo⟩) initState)) ∧
    (step (Op.markDone 3)
      (step (Op.start ⟨1, TaskStatus.todo⟩) initState)).activeTask = none ∧
    (step (Op.markDone 3)
      (step (Op.start ⟨1, TaskStatus.todo⟩) initState)).timer.currentMode =
      TimerMode.pomodoroWork ∧
    (step (Op.markDone 3)
      (step (Op.start ⟨1, TaskStatus.todo⟩) initState)).timer.isRunning =
      true ∧
    Reachable (step (Op.delete 1)
      (step (Op.start ⟨1, TaskStatus.todo⟩) initState)) ∧
    (step (Op.delete 1)
      (step (Op.start ⟨1, TaskStatus.todo⟩) initState)).activeTask =
      some ⟨1, TaskStatus.todo⟩ ∧
    statusOf 1 (step (Op.delete 1)
      (step (Op.start ⟨1, TaskStatus.todo⟩) initState)) = none := by
  refine ⟨Reachable.step _ (Reachable.step _ Reachable.init), by decide,
    by decide, by decide,
    Reachable.step _ (Reachable.step _ Reachable.init), by decide, by decide⟩

/-- Invariant: whenever `activeTask` is set, the timer is in a running
phase and every registry entry with the active id has status `doing`. -/
def ActiveInv (s : AppState) : Prop :=
  ∀ a : Task, s.activeTask = some a →
    (s.timer.currentMode = TimerMode.pomodoroWork ∨
      s.timer.currentMode = TimerMode.pomodoroBreak) ∧
    ∀ t ∈ s.tasks, t.id = a.id → t.status = TaskStatus.doing

theorem activeInv_start (task : Task) (s : AppState) :
    ActiveInv (startTimer task s) := by
  intro a ha
  have ha2 : task = a := Option.some.inj ha
  subst ha2
  refine ⟨Or.inl rfl, ?_⟩
  intro t ht htid
  exact status_of_mem_setStatus ht htid

theorem activeInv_effect (s : AppState) (h : ActiveInv s) :
    ActiveInv (timerEffectAtZero s) := by
  simp only [timerEffectAtZero]
  split
  · split
    · intro a ha
      exact ⟨Or.inr rfl, (h a ha).2⟩
    · cases hA : s.activeTask with
      | none => intro a ha; exact Option.noConfusion ha
      | some a0 => intro a ha; exact Option.noConfusion ha
  · split
    · intro a ha
      exact ⟨Or.inl rfl, (h a ha).2⟩
    · exact h

theorem activeInv_tick (s : AppState) (h : ActiveInv s) :
    ActiveInv (tickSecond s) := by
  simp only [tickSecond]
  split
  · split
    · exact activeInv_effect _ h
    · exact h
  · exact h

theorem activeInv_delete (taskId : Nat) (s : AppState) (h : ActiveInv s) :
    ActiveInv (handleDeleteTask taskId s) := by
  intro a ha
  obtain ⟨h1, h2⟩ := h a ha
  refine ⟨h1, ?_⟩
  intro t ht htid
  exact h2 t (List.mem_of_mem_filter ht) htid

theorem activeInv_step (o : Op) (s : AppState) (h : ActiveInv s) :
    ActiveInv (step o s) := by
  cases o with
  | start task => exact activeInv_start task s
  | tick => exact activeInv_tick s h
  | togglePause => exact h
  | complete =>
    cases hA : s.activeTask with
    | none =>
      have he : onComplete s = s := by simp [onComplete, hA]
      show ActiveInv (onComplete s)
      rw [he]
      exact h
    | some a0 =>
      intro a ha
      have hnone : (onComplete s).activeTask = none := by
        simp [onComplete, hA, resetTimerWith]
      have ha2 : (onComplete s).activeTask = some a := ha
      rw [hnone] at ha2
      exact Option.noConfusion ha2
  | reset => intro a ha; exact Option.noConfusion ha
  | markDone taskId => intro a ha; exact Option.noConfusion ha
  | markTodo taskId => intro a ha; exact Option.noConfusion ha
  | delete taskId => exact activeInv_delete taskId s h
  | saveSettings w b n => exact h

/-- C2 (amended): for every reachable state, if `activeTask` is set then
the phase is not idle (it is work or break) and every registry entry with
the active id has status `doing`.  The converse direction of the original
claim is false (see the counterexample): an external mark-done clears
`activeTask` without stopping the timer, and the referenced task may have
been deleted from the registry. -/
theorem active_task_invariant (s : AppState) (hs : Reachable s) :
    ∀ a : Task, s.activeTask = some a →
      (s.timer.currentMode = TimerMode.pomodoroWork ∨
        s.timer.currentMode = TimerMode.pomodoroBreak) ∧
      ∀ t ∈ s.tasks, t.id = a.id → t.status = TaskStatus.doing := by
  induction hs with
  | init => intro a ha; exact Option.noConfusion ha
  | step o hs ih => exact activeInv_step o _ ih

theorem active_task_invariant_witness :
    ((step (Op.start ⟨1, TaskStatus.todo⟩) initState).timer.currentMode =
        TimerMode.pomodoroWork ∨
      (step (Op.start ⟨1, TaskStatus.todo⟩) initState).timer.currentMode =
        TimerMode.pomodoroBreak) ∧
    Task.status ⟨1, TaskStatus.doing⟩ = TaskStatus.doing := by
  have h := active_task_invariant _
    (Reachable.step (Op.start ⟨1, TaskStatus.todo⟩) Reachable.init)
    ⟨1, TaskStatus.todo⟩ rfl
  exact ⟨h.1, h.2 ⟨1, TaskStatus.doing⟩ (by decide) rfl⟩


/-- C7 counterexample: start task 1, press done on task 3 (which clears
`activeTask` but leaves task 1 `doing` and the timer running), then start
task 2 - no demotion happens because `activeTask` is `none`, so tasks 1
and 2 are both `doing` in a reachable state. -/
theorem single_doing_counterexample :
    Reachable (step (Op.start ⟨2, TaskStatus.todo⟩) (step (Op.markDone 3)
      (step (Op.start ⟨1, TaskStatus.todo⟩) initState))) ∧
    (step (Op.start ⟨2, TaskStatus.todo⟩) (step (Op.markDone 3)
      (step (Op.start ⟨1, TaskStatus.todo⟩) initState))).tasks.countP
      (fun t => decide (t.status = TaskStatus.doing)) = 2 := by
  refine ⟨Reachable.step _ (Reachable.step _ (Reachable.step _
    Reachable.init)), by decide⟩

/-- Invariant: registry ids are distinct, and every `doing` entry carries
the id of the active task. -/
def DoingInv (s : AppState) : Prop :=
  (s.tasks.map Task.id).Nodup ∧
  ∀ t ∈ s.tasks, t.status = TaskStatus.doing →
    ∃ a : Task, s.activeTask = some a ∧ t.id = a.id

theorem doing_id_of_inv {s : AppState} (h : DoingInv s) {a : Task}
    (hA : s.activeTask = some a) :
    ∀ t ∈ s.tasks, t.status = TaskStatus.doing → t.id = a.id := by
  intro t ht hd
  obtain ⟨a2, ha2, hid⟩ := h.2 t ht hd
  rw [hA] at ha2
  have h3 := Option.some.inj ha2
  rw [hid, ← h3]

theorem doing_id_after_setStatus {a : Task} {st : TaskStatus} {l : List Task}
    (h : ∀ t ∈ l, t.status = TaskStatus.doing → t.id = a.id) :
    ∀ t ∈ setStatusInTasks a.id st l, t.status = TaskStatus.doing →
      t.id = a.id := by
  intro t ht hd
  rcases mem_setStatus_cases ht with ⟨hid, _⟩ | ⟨_, hmem⟩
  · exact hid
  · exact h t hmem hd

theorem no_doing_after_demote {a : Task} {st : TaskStatus}
    (hst : st ≠ TaskStatus.doing) {l : List Task}
    (h : ∀ t ∈ l, t.status = TaskStatus.doing → t.id = a.id) :
    ∀ t ∈ setStatusInTasks a.id st l, ¬ t.status = TaskStatus.doing := by
  intro t ht hd
  rcases mem_setStatus_cases ht with ⟨_, hs2⟩ | ⟨hne, hmem⟩
  · rw [hs2] at hd
    exact hst hd
  · exact hne (h t hmem hd)

theorem countP_mono_tasks (l : List Task) (p q : Task → Bool)
    (h : ∀ t ∈ l, p t = true → q t = true) :
    l.countP p ≤ l.countP q := by
  induction l with
  | nil => simp
  | cons t ts ih =>
    rw [List.countP_cons, List.countP_cons]
    have h1 := ih fun u hu => h u (List.mem_cons_of_mem t hu)
    by_cases hp : p t = true
    · have hq := h t (List.mem_cons_self t ts) hp
      simp [hp, hq]
      omega
    · simp [hp]
      exact Nat.le_trans h1 (Nat.le_add_right _ _)

theorem countP_id_le_one {l : List Task}
    (hnd : (l.map Task.id).Nodup) (x : Nat) :
    l.countP (fun t => decide (t.id = x)) ≤ 1 := by
  induction l with
  | nil => simp
  | cons t ts ih =>
    rw [List.map_cons, List.nodup_cons] at hnd
    rw [List.countP_cons]
    by_cases hx : t.id = x
    · have hz : ts.countP (fun u => decide (u.id = x)) = 0 := by
        rw [List.countP_eq_zero]
        intro u hu
        simp only [decide_eq_true_eq]
        intro hux
        apply hnd.1
        have h2 : t.id = u.id := by rw [hx, hux]
        rw [h2]
        exact List.mem_map_of_mem Task.id hu
      simp [hx, hz]
    · have h1 := ih hnd.2
      simp [hx]
      omega

theorem doingInv_start (task : Task) (s : AppState) (h : DoingInv s) :
    DoingInv (startTimer task s) := by
  obtain ⟨hnd, hdo⟩ := h
  have key : ∃ M : List Task,
      (startTimer task s).tasks =
        setStatusInTasks task.id TaskStatus.doing M ∧
      (M.map Task.id).Nodup ∧
      ∀ t ∈ M, t.status = TaskStatus.doing → t.id = task.id := by
    cases hA : s.activeTask with
    | none =>
      refine ⟨s.tasks, ?_, hnd, ?_⟩
      · simp [startTimer, hA, handleUpdateStatus]
      · intro t ht hd
        obtain ⟨a, ha, _⟩ := hdo t ht hd
        rw [hA] at ha
        exact Option.noConfusion ha
    | some a =>
      by_cases hid : a.id ≠ task.id
      · refine ⟨setStatusInTasks a.id TaskStatus.todo s.tasks, ?_, ?_, ?_⟩
        · simp [startTimer, hA, hid, handleUpdateStatus]
        · rw [setStatusInTasks_map_id]
          exact hnd
        · intro t ht hd
          rcases mem_setStatus_cases ht with ⟨_, hs2⟩ | ⟨hne, hmem⟩
          · rw [hs2] at hd
            exact absurd hd (by decide)
          · exact absurd (doing_id_of_inv ⟨hnd, hdo⟩ hA t hmem hd) hne
      · have hid2 : a.id = task.id := not_not.mp hid
        refine ⟨s.tasks, ?_, hnd, ?_⟩
        · simp [startTimer, hA, hid2, handleUpdateStatus]
        · intro t ht hd
          have h3 := doing_id_of_inv ⟨hnd, hdo⟩ hA t ht hd
          rw [h3, hid2]
  obtain ⟨M, hM1, hM2, hM3⟩ := key
  refine ⟨?_, ?_⟩
  · rw [hM1, setStatusInTasks_map_id]
    exact hM2
  · intro t ht hd
    rw [hM1] at ht
    exact ⟨task, rfl, doing_id_after_setStatus hM3 t ht hd⟩

theorem doingInv_reset (s : AppState) (h : DoingInv s) :
    DoingInv (resetTimer s) := by
  obtain ⟨hnd, hdo⟩ := h
  cases hA : s.activeTask with
  | none =>
    have ht : (resetTimer s).tasks = s.tasks := by
      simp [resetTimer, resetTimerWith, hA]
    refine ⟨?_, ?_⟩
    · rw [ht]
      exact hnd
    · intro t htm hd
      rw [ht] at htm
      obtain ⟨a, ha, _⟩ := hdo t htm hd
      rw [hA] at ha
      exact Option.noConfusion ha
  | some a =>
    have ht : (resetTimer s).tasks =
        setStatusInTasks a.id TaskStatus.todo s.tasks := by
      simp [resetTimer, resetTimerWith, hA]
    refine ⟨?_, ?_⟩
    · rw [ht, setStatusInTasks_map_id]
      exact hnd
    · intro t htm hd
      rw [ht] at htm
      exact absurd hd (no_doing_after_demote (by decide)
        (doing_id_of_inv ⟨hnd, hdo⟩ hA) t htm)

theorem doingInv_complete (s : AppState) (h : DoingInv s) :
    DoingInv (onComplete s) := by
  obtain ⟨hnd, hdo⟩ := h
  cases hA : s.activeTask with
  | none =>
    have he : onComplete s = s := by simp [onComplete, hA]
    rw [he]
    exact ⟨hnd, hdo⟩
  | some a =>
    have ht : (onComplete s).tasks =
        setStatusInTasks a.id TaskStatus.todo
          (setStatusInTasks a.id TaskStatus.done s.tasks) := by
      simp [onComplete, hA, resetTimerWith, handleUpdateStatus]
    have hnone : (onComplete s).activeTask = none := by
      simp [onComplete, hA, resetTimerWith]
    refine ⟨?_, ?_⟩
    · rw [ht, setStatusInTasks_map_id, setStatusInTasks_map_id]
      exact hnd
    · intro t htm hd
      rw [ht] at htm
      exact absurd hd (no_doing_after_demote (by decide)
        (doing_id_after_setStatus (doing_id_of_inv ⟨hnd, hdo⟩ hA)) t htm)

theorem doingInv_effect (s : AppState) (h : DoingInv s) :
    DoingInv (timerEffectAtZero s) := by
  obtain ⟨hnd, hdo⟩ := h
  simp only [timerEffectAtZero]
  split
  · split
    · exact ⟨hnd, hdo⟩
    · cases hA : s.activeTask with
      | none =>
        refine ⟨hnd, ?_⟩
        intro t htm hd
        obtain ⟨a, ha, _⟩ := hdo t htm hd
        rw [hA] at ha
        exact Option.noConfusion ha
      | some a =>
        have ht : (resetTimerWith (some a) s.timerSettings
            (handleUpdateStatus a.id TaskStatus.todo s)).tasks =
            setStatusInTasks a.id TaskStatus.todo
              (setStatusInTasks a.id TaskStatus.todo s.tasks) := by
          simp [resetTimerWith, handleUpdateStatus]
        refine ⟨?_, ?_⟩
        · rw [ht, setStatusInTasks_map_id, setStatusInTasks_map_id]
          exact hnd
        · intro t htm hd
          rw [ht] at htm
          exact absurd hd (no_doing_after_demote (by decide)
            (doing_id_after_setStatus (doing_id_of_inv ⟨hnd, hdo⟩ hA))
            t htm)
  · split
    · exact ⟨hnd, hdo⟩
    · exact ⟨hnd, hdo⟩

theorem doingInv_tick (s : AppState) (h : DoingInv s) :
    DoingInv (tickSecond s) := by
  simp only [tickSecond]
  split
  · split
    · exact doingInv_effect _ h
    · exact h
  · exact h

theorem doingInv_delete (taskId : Nat) (s : AppState) (h : DoingInv s) :
    DoingInv (handleDeleteTask taskId s) := by
  obtain ⟨hnd, hdo⟩ := h
  refine ⟨?_, ?_⟩
  · have hsub : List.Sublist
        ((s.tasks.filter fun t => t.id ≠ taskId).map Task.id)
        (s.tasks.map Task.id) :=
      (List.filter_sublist s.tasks).map Task.id
    exact List.Nodup.sublist hsub hnd
  · intro t htm hd
    exact hdo t (List.mem_of_mem_filter htm) hd

theorem doingInv_stepTimer (o : Op) (ho : isExternalMark o = false)
    (s : AppState) (h : DoingInv s) : DoingInv (step o s) := by
  cases o with
  | start task => exact doingInv_start task s h
  | tick => exact doingInv_tick s h
  | togglePause => exact h
  | complete => exact doingInv_complete s h
  | reset => exact doingInv_reset s h
  | markDone taskId => exact Bool.noConfusion ho
  | markTodo taskId => exact Bool.noConfusion ho
  | delete taskId => exact doingInv_delete taskId s h
  | saveSettings w b n => exact h

/-- C7 (amended): in every state reachable without the external mark-done
and revert buttons (that is, via start, tick, pause/resume, complete,
reset, delete and settings changes), at most one task in the registry has
status `doing`.  With the external buttons the original claim is false
(see the counterexample): marking any task done while the timer runs
clears `activeTask`, so the running task is never demoted and a later
start leaves two `doing` tasks. -/
theorem at_most_one_doing (s : AppState) (hs : ReachableTimer s) :
    s.tasks.countP (fun t => decide (t.status = TaskStatus.doing)) ≤ 1 := by
  have hInv : DoingInv s := by
    induction hs with
    | init =>
      refine ⟨by decide, ?_⟩
      intro t ht hd
      have ht2 : t ∈ initialTasks := ht
      simp only [initialTasks, List.mem_cons, List.not_mem_nil,
        or_false] at ht2
      rcases ht2 with rfl | rfl | rfl
      · exact absurd hd (by decide)
      · exact absurd hd (by decide)
      · exact absurd hd (by decide)
    | step o ho hs ih => exact doingInv_stepTimer o ho _ ih
  obtain ⟨hnd, hdo⟩ := hInv
  cases hA : s.activeTask with
  | none =>
    have hz : s.tasks.countP
        (fun t => decide (t.status = TaskStatus.doing)) = 0 := by
      rw [List.countP_eq_zero]
      intro t ht
      simp only [decide_eq_true_eq]
      intro hd
      obtain ⟨a, ha, _⟩ := hdo t ht hd
      rw [hA] at ha
      exact Option.noConfusion ha
    omega
  | some a =>
    have hmono := countP_mono_tasks s.tasks
      (fun t => decide (t.status = TaskStatus.doing))
      (fun t => decide (t.id = a.id)) ?_
    · exact Nat.le_trans hmono (countP_id_le_one hnd a.id)
    · intro t ht hp
      rw [decide_eq_true_eq] at hp
      rw [decide_eq_true_eq]
      exact doing_id_of_inv ⟨hnd, hdo⟩ hA t ht hp

theorem at_most_one_doing_witness :
    initState.tasks.countP
      (fun t => decide (t.status = TaskStatus.doing)) ≤ 1 :=
  at_most_one_doing initState ReachableTimer.init

end TaskApp
